import Mathlib

/-!
Verification development for the agent-crm core (scripts/crm.py and
scripts/crm-backup.py): a shallow embedding of the temporal resolver,
entity resolver, audit-logged mutation engine, pipeline aggregation and
the backup/restore manager, together with theorems about the claimed
properties of these components.

Conventions of the embedding:
* SQLite TEXT timestamps (datetime.now().isoformat()) are modelled as
  abstract `Nat` instants: isoformat strings of a single process are
  order-isomorphic to the instants they denote.
* The wall clock passed to the temporal resolver is modelled as an
  explicit civil datetime (`PDT`) parameter; in the source it is the
  implicit `datetime.now()` at call time.
* `schema.sql` is not part of the sources; per the spec every entity has
  an auto-incrementing identity and nullable columns default to NULL, so
  the state carries explicit per-table counters and inserts leave
  unlisted columns empty. That is the only spec-modelled part.
-/

/- ============ Temporal resolver (scripts/crm.py, parse_date) ============ -/

/-- Gregorian leap-year test (Python calendar rules). -/
def isLeap (y : Int) : Bool :=
  y % 4 == 0 && (y % 100 != 0 || y % 400 == 0)

/-- Number of days in month `m` of year `y`. -/
def daysInMonth (y : Int) (m : Nat) : Nat :=
  if m = 2 then (if isLeap y then 29 else 28)
  else if m = 4 ∨ m = 6 ∨ m = 9 ∨ m = 11 then 30 else 31

/-- Day number of a civil date (days since 1970-01-01, Hinnant's
days-from-civil algorithm, as used by Python's proleptic Gregorian
`datetime` arithmetic). -/
def toDayNum (y : Int) (m d : Nat) : Int :=
  let y' : Int := if m ≤ 2 then y - 1 else y
  let era : Int := Int.fdiv y' 400
  let yoe : Int := y' - era * 400
  let mp : Nat := if m > 2 then m - 3 else m + 9
  let doy : Int := (153 * (mp : Int) + 2) / 5 + (d : Int) - 1
  let doe : Int := yoe * 365 + Int.fdiv yoe 4 - Int.fdiv yoe 100 + doy
  era * 146097 + doe - 719468

/-- Civil date from a day number (Hinnant's civil-from-days algorithm). -/
def fromDayNum (z0 : Int) : Int × Nat × Nat :=
  let z := z0 + 719468
  let era := Int.fdiv z 146097
  let doe : Nat := (z - era * 146097).toNat
  let yoe : Nat := (doe - doe / 1460 + doe / 36524 - doe / 146096) / 365
  let y : Int := (yoe : Int) + era * 400
  let doy : Nat := doe - (365 * yoe + yoe / 4 - yoe / 100)
  let mp : Nat := (5 * doy + 2) / 153
  let d : Nat := doy - (153 * mp + 2) / 5 + 1
  let m : Nat := if mp < 10 then mp + 3 else mp - 9
  (if m ≤ 2 then y + 1 else y, m, d)

/-- A Python naive `datetime`: civil date plus seconds after midnight. -/
structure PDT where
  year : Int
  month : Nat
  day : Nat
  tod : Nat
deriving DecidableEq, Repr, Inhabited

/-- `datetime.now().replace(hour=0, minute=0, second=0, microsecond=0)`. -/
def midnight (t : PDT) : PDT :=
  { t with tod := 0 }

/-- `t + timedelta(days=n)`. -/
def addDays (t : PDT) (n : Int) : PDT :=
  match fromDayNum (toDayNum t.year t.month t.day + n) with
  | (y, m, d) => ⟨y, m, d, t.tod⟩

/-- `datetime.weekday()`: Monday = 0. 1970-01-01 was a Thursday (3). -/
def PDT.weekday (t : PDT) : Nat :=
  ((toDayNum t.year t.month t.day + 3).emod 7).toNat

/-- Python `datetime` comparison (lexicographic on date, then time). -/
def pdtLt (a b : PDT) : Bool :=
  a.year < b.year ||
  (a.year == b.year && (a.month < b.month ||
    (a.month == b.month && (a.day < b.day ||
      (a.day == b.day && a.tod < b.tod)))))

/-- Result of `parse_date`: either a resolved datetime (an isoformat
string in the source) or the unparsed raw string passed through. -/
inductive PRes where
  | dt (d : PDT)
  | raw (s : String)
deriving DecidableEq, Repr, Inhabited

def weekNames : List String :=
  ["monday", "tuesday", "wednesday", "thursday", "friday", "saturday", "sunday"]

/-- Whether `pat` occurs as a prefix of `l` (character lists). -/
def hasPre : List Char → List Char → Bool
  | [], _ => true
  | _ :: _, [] => false
  | a :: as, b :: bs => a == b && hasPre as bs

/-- Whether `needle` occurs as a substring of `hay`; models SQL
`hay LIKE '%' + needle + '%'` for a needle with no wildcard characters. -/
def containsSub (hay needle : String) : Bool :=
  go needle.data hay.data
where
  go (n : List Char) : List Char → Bool
    | [] => hasPre n []
    | c :: rest => hasPre n (c :: rest) || go n rest

/-- Numeric value of a digit list (Python `int` of a `\d+` group). -/
def natOfDigits (ds : List Char) : Nat :=
  ds.foldl (fun acc c => acc * 10 + (c.toNat - 48)) 0

/-- Python `s.lower()` (ASCII model, as in `str.lower` for the inputs of
interest). Implemented over the character list so that it is fully
reducible by the kernel. -/
def pyLower (s : String) : String :=
  ⟨s.data.map Char.toLower⟩

/-- Python `s.strip()`: remove leading and trailing whitespace. -/
def pyStrip (s : String) : String :=
  ⟨((s.data.dropWhile (·.isWhitespace)).reverse.dropWhile (·.isWhitespace)).reverse⟩

/-- `s.lower().strip()`, the normalization parse_date applies first. -/
def pyNorm (s : String) : String :=
  pyStrip (pyLower s)

/-- `s.startswith('next ')`. -/
def startsWithNext (t : String) : Bool :=
  hasPre "next ".data t.data

/-- `s[5:]` for the branches that strip a leading five-character `next `. -/
def dropNext (t : String) : String :=
  ⟨t.data.drop 5⟩

/-- SQLite's TEXT-to-INTEGER affinity conversion for a `WHERE id = ?`
comparison, modelled as decimal parsing of the argument. -/
def pyToNat (s : String) : Option Nat :=
  if s.data ≠ [] ∧ s.data.all (·.isDigit) then some (natOfDigits s.data) else none

/-- The regex `in (\d+) (day|week|month)s?` anchored at the start
(`re.match`): returns the count and the unit on success. Trailing
characters are unconstrained, exactly as with `re.match`. -/
def inPat (s : String) : Option (Nat × String) :=
  match s.data with
  | 'i' :: 'n' :: ' ' :: rest =>
    let ds := rest.takeWhile (·.isDigit)
    let rest2 := rest.dropWhile (·.isDigit)
    if ds.isEmpty then none
    else
      match rest2 with
      | ' ' :: rest3 =>
        if hasPre "day".data rest3 then some (natOfDigits ds, "day")
        else if hasPre "week".data rest3 then some (natOfDigits ds, "week")
        else if hasPre "month".data rest3 then some (natOfDigits ds, "month")
        else none
      | _ => none
  | _ => none

/-- strptime `%m` / `%d` field: two digits when they form a value in
`1..hi`, else one nonzero digit (mirrors the `1[0-2]|0[1-9]|[1-9]`-style
alternations of CPython's `_strptime`). -/
def parse2or1 (l : List Char) (hi : Nat) : Option (Nat × List Char) :=
  match l with
  | a :: b :: rest =>
    if a.isDigit then
      if b.isDigit then
        let v := (a.toNat - 48) * 10 + (b.toNat - 48)
        if 1 ≤ v && v ≤ hi then some (v, rest)
        else if 1 ≤ a.toNat - 48 then some (a.toNat - 48, b :: rest) else none
      else if 1 ≤ a.toNat - 48 then some (a.toNat - 48, b :: rest) else none
    else none
  | [a] => if a.isDigit && 1 ≤ a.toNat - 48 then some (a.toNat - 48, []) else none
  | [] => none

/-- strptime `%Y` field: exactly four digits. -/
def parse4 (l : List Char) : Option (Nat × List Char) :=
  match l with
  | a :: b :: c :: d :: rest =>
    if a.isDigit && b.isDigit && c.isDigit && d.isDigit then
      some ((a.toNat - 48) * 1000 + (b.toNat - 48) * 100 +
            (c.toNat - 48) * 10 + (d.toNat - 48), rest)
    else none
  | _ => none

/-- Literal separator character in a strptime format. -/
def expectChar (c : Char) (l : List Char) : Option (List Char) :=
  match l with
  | a :: rest => if a == c then some rest else none
  | [] => none

/-- Whitespace in a strptime format matches one or more whitespace chars. -/
def expectSpace (l : List Char) : Option (List Char) :=
  match l with
  | a :: rest => if a.isWhitespace then some (rest.dropWhile (·.isWhitespace)) else none
  | [] => none

/-- The `datetime` constructor's validity check applied by strptime. -/
def validCivil (y : Int) (m d : Nat) : Bool :=
  1 ≤ y && 1 ≤ m && m ≤ 12 && 1 ≤ d && d ≤ daysInMonth y m

/-- strptime with format `%Y-%m-%d` (whole-string match). -/
def fmtYMD (l : List Char) : Option (Int × Nat × Nat) := do
  let (y, r1) ← parse4 l
  let r2 ← expectChar '-' r1
  let (m, r3) ← parse2or1 r2 12
  let r4 ← expectChar '-' r3
  let (d, r5) ← parse2or1 r4 31
  if r5.isEmpty && validCivil (y : Int) m d then some ((y : Int), m, d) else none

/-- strptime with format `%m/%d/%Y` (whole-string match). -/
def fmtMDY (l : List Char) : Option (Int × Nat × Nat) := do
  let (m, r1) ← parse2or1 l 12
  let r2 ← expectChar '/' r1
  let (d, r3) ← parse2or1 r2 31
  let r4 ← expectChar '/' r3
  let (y, r5) ← parse4 r4
  if r5.isEmpty && validCivil (y : Int) m d then some ((y : Int), m, d) else none

/-- strptime with format `%m/%d`; the missing year defaults to 1900. -/
def fmtMD (l : List Char) : Option (Int × Nat × Nat) := do
  let (m, r1) ← parse2or1 l 12
  let r2 ← expectChar '/' r1
  let (d, r3) ← parse2or1 r2 31
  if r3.isEmpty && validCivil 1900 m d then some ((1900 : Int), m, d) else none

def monthNamesFull : List String :=
  ["january", "february", "march", "april", "may", "june", "july",
   "august", "september", "october", "november", "december"]

def monthNamesAbbr : List String :=
  ["jan", "feb", "mar", "apr", "may", "jun", "jul", "aug", "sep", "oct", "nov", "dec"]

/-- strptime `%B`/`%b` field against a table of (lowercased) month names;
returns the 1-based month and the remaining characters. -/
def parseMonthName (names : List String) (l : List Char) : Option (Nat × List Char) :=
  go names 1
where
  go : List String → Nat → Option (Nat × List Char)
    | [], _ => none
    | n :: rest, i =>
      if hasPre n.data l then some (i, l.drop n.length) else go rest (i + 1)

/-- strptime with format `%B %d`; the missing year defaults to 1900. -/
def fmtBD (l : List Char) : Option (Int × Nat × Nat) := do
  let (m, r1) ← parseMonthName monthNamesFull l
  let r2 ← expectSpace r1
  let (d, r3) ← parse2or1 r2 31
  if r3.isEmpty && validCivil 1900 m d then some ((1900 : Int), m, d) else none

/-- strptime with format `%b %d`; the missing year defaults to 1900. -/
def fmtbD (l : List Char) : Option (Int × Nat × Nat) := do
  let (m, r1) ← parseMonthName monthNamesAbbr l
  let r2 ← expectSpace r1
  let (d, r3) ← parse2or1 r2 31
  if r3.isEmpty && validCivil 1900 m d then some ((1900 : Int), m, d) else none

/-- The year-defaulting step of `parse_date`: a parse result whose year is
1900 (no year in the format) is moved to the reference year, rolled one
year forward when it already lies strictly before the reference day. -/
def yearFix (y : Int) (m d : Nat) (today : PDT) : PDT :=
  if y == 1900 then
    let dt : PDT := ⟨today.year, m, d, 0⟩
    if pdtLt dt today then ⟨today.year + 1, m, d, 0⟩ else dt
  else ⟨y, m, d, 0⟩

/-- The `next week` / `next month` branch: `startswith('next ')` with
the inner unit tests, falling through (`none`) on any other suffix. -/
def nextUnitBranch (t : String) (today : PDT) : Option PRes :=
  if startsWithNext t then
    if dropNext t = "week" then some (.dt (addDays today 7))
    else if dropNext t = "month" then some (.dt (addDays today 30))
    else none
  else none

/-- The ordered strptime format list of parse_date: the first format
that parses the whole string wins. -/
def fmtParse (l : List Char) : Option (Int × Nat × Nat) :=
  match fmtYMD l with
  | some r => some r
  | none =>
    match fmtMDY l with
    | some r => some r
    | none =>
      match fmtMD l with
      | some r => some r
      | none =>
        match fmtBD l with
        | some r => some r
        | none => fmtbD l

/-- `parse_date` from scripts/crm.py, with the implicit `datetime.now()`
made an explicit reference instant `ref`. Returns `none` exactly for the
empty string; otherwise either a resolved datetime or the lowercased,
stripped input passed through raw. -/
def parse_date (s : String) (ref : PDT) : Option PRes :=
  if s = "" then none
  else
    let t := pyNorm s
    let today := midnight ref
    if t = "today" then some (.dt today)
    else if t = "tomorrow" then some (.dt (addDays today 1))
    else if t = "yesterday" then some (.dt (addDays today (-1)))
    else
      match nextUnitBranch t today with
      | some r => some r
      | none =>
        match inPat t with
        | some (n, unit) =>
          if unit = "day" then some (.dt (addDays today (n : Int)))
          else if unit = "week" then some (.dt (addDays today (7 * (n : Int))))
          else some (.dt (addDays today (30 * (n : Int))))
        | none =>
          if t ∈ weekNames ∨ (startsWithNext t = true ∧ dropNext t ∈ weekNames) then
            let name := if startsWithNext t then dropNext t else t
            let target : Int := (weekNames.findIdx (· == name) : Int)
            let cur : Int := ((midnight ref).weekday : Int)
            let delta0 : Int := target - cur
            let delta : Int := if delta0 ≤ 0 then delta0 + 7 else delta0
            some (.dt (addDays today delta))
          else
            match fmtParse t.data with
            | some (y, m, d) => some (.dt (yearFix y m d today))
            | none => some (.raw t)

/-- The disjunction of all pattern classes `parse_date` recognizes,
evaluated on the lowercased stripped input: keywords, next week/month,
`in N units`, weekday names, and the five strptime formats. -/
def Recognized (t : String) : Prop :=
  t = "today" ∨ t = "tomorrow" ∨ t = "yesterday" ∨
  (startsWithNext t = true ∧ (dropNext t = "week" ∨ dropNext t = "month")) ∨
  (inPat t).isSome = true ∨
  t ∈ weekNames ∨ (startsWithNext t = true ∧ dropNext t ∈ weekNames) ∨
  (fmtYMD t.data).isSome = true ∨ (fmtMDY t.data).isSome = true ∨
  (fmtMD t.data).isSome = true ∨ (fmtBD t.data).isSome = true ∨
  (fmtbD t.data).isSome = true

instance (t : String) : Decidable (Recognized t) := by
  unfold Recognized
  exact inferInstance

/- ============ Entity resolver (scripts/crm.py) ============ -/

/-- A row of the `contacts` table. -/
structure Contact where
  id : Nat
  name : String
  email : Option String
  phone : Option String
  company : Option String
  role : Option String
  source : Option String
  tags : Option (List String)
  notes : Option String
  created_at : Nat
  updated_at : Nat
deriving DecidableEq, Repr, Inhabited

/-- `WHERE id = ? OR lower(name) LIKE '%' + ident.lower() + '%'` for one
row. The `id = ?` comparison against a TEXT argument follows SQLite's
INTEGER column affinity, modelled as decimal parsing of the argument. -/
def contactMatches (ident : String) (c : Contact) : Bool :=
  pyToNat ident == some c.id || containsSub (pyLower c.name) (pyLower ident)

/-- The entity-resolution query of update_contact / add_deal /
log_interaction / add_task: a `fetchone` over the table scan with no
ORDER BY, i.e. the first matching row in rowid (insertion) order. -/
def resolveContact (cs : List Contact) (ident : String) : Option Contact :=
  cs.find? (contactMatches ident)

/-- A row of the `deals` table. `expected_close` stores a `parse_date`
result verbatim (the source stores whatever string parse_date returned). -/
structure Deal where
  id : Nat
  contact_id : Option Nat
  title : String
  value : Option ℚ
  currency : String
  stage : String
  probability : Option Int
  expected_close : Option PRes
  notes : Option String
  closed_at : Option Nat
  created_at : Nat
  updated_at : Nat
deriving DecidableEq, Repr, Inhabited

/-- `WHERE id = ? OR lower(title) LIKE ?` for one deal row. -/
def dealMatches (ident : String) (d : Deal) : Bool :=
  pyToNat ident == some d.id || containsSub (pyLower d.title) (pyLower ident)

/-- update_deal's resolution query (`fetchone`, no ORDER BY). -/
def resolveDeal (ds : List Deal) (ident : String) : Option Deal :=
  ds.find? (dealMatches ident)

/-- A row of the `interactions` table. `deal_id` is inserted verbatim
from the argument (the source does not resolve it). -/
structure Interaction where
  id : Nat
  contact_id : Option Nat
  deal_id : Option String
  type : String
  direction : Option String
  summary : String
  raw_content : Option String
  occurred_at : Option PRes
deriving DecidableEq, Repr, Inhabited

/-- A row of the `tasks` table. -/
structure CrmTask where
  id : Nat
  contact_id : Option Nat
  deal_id : Option String
  title : String
  due_at : Option PRes
  priority : String
  completed_at : Option Nat
  created_at : Nat
deriving DecidableEq, Repr, Inhabited

/-- `WHERE id = ? OR lower(title) LIKE ?` for one task row. -/
def taskMatches (ident : String) (t : CrmTask) : Bool :=
  pyToNat ident == some t.id || containsSub (pyLower t.title) (pyLower ident)

/-- complete_task's resolution query (`fetchone`, no ORDER BY). -/
def resolveTask (ts : List CrmTask) (ident : String) : Option CrmTask :=
  ts.find? (taskMatches ident)

/- ============ Audit ledger (scripts/crm.py, audit_log) ============ -/

/-- The sparse change set audit-logged by update_contact: exactly the
supplied fields plus the stamped `updated_at`. -/
structure ContactChanges where
  name : Option String
  email : Option String
  phone : Option String
  company : Option String
  role : Option String
  source : Option String
  notes : Option String
  tags : Option (List String)
  updated_at : Nat
deriving DecidableEq, Repr

/-- The sparse change set audit-logged by update_deal: the supplied
fields, a parsed `expected_close` when supplied, and `closed_at` when the
new stage is terminal. `updated_at` is not part of this set. -/
structure DealChanges where
  title : Option String
  value : Option ℚ
  currency : Option String
  stage : Option String
  probability : Option Int
  notes : Option String
  expected_close : Option (Option PRes)
  closed_at : Option Nat
deriving DecidableEq, Repr

/-- The snapshot payloads passed to audit_log at its eight call sites
(full rows for old values; the caller-selected dicts for new values). -/
inductive Snap where
  | contactRow (c : Contact)
  | contactIns (name : String) (email : Option String) (company : Option String)
  | contactCh (ch : ContactChanges)
  | dealRow (d : Deal)
  | dealIns (title : String) (value : Option ℚ) (stage : String)
  | dealCh (ch : DealChanges)
  | interIns (type : String) (summary : String)
  | taskRow (t : CrmTask)
  | taskIns (title : String) (due : Option PRes)
  | taskDone (completed_at : Nat)
deriving DecidableEq, Repr

/-- A row of the append-only `audit_log` table. -/
structure AuditEntry where
  table_name : String
  record_id : Nat
  action : String
  old_values : Option Snap
  new_values : Option Snap
  reason : Option String
  conversation_ref : Option String
deriving DecidableEq, Repr

/-- `audit_log`: one INSERT into the audit table. No caller passes
`conv_ref`, so it is always NULL. -/
def audit_log (audit : List AuditEntry) (table : String) (record_id : Nat)
    (action : String) (old new : Option Snap) (reason : Option String) :
    List AuditEntry :=
  audit ++ [⟨table, record_id, action, old, new, reason, none⟩]

/- ============ Mutation engine (scripts/crm.py) ============ -/

/-- The persistent store: the four entity tables, the audit ledger, and
the auto-increment counters (modelled from the spec: schema.sql is not
among the sources; the spec fixes auto-incrementing identity). -/
structure CRMState where
  contacts : List Contact
  deals : List Deal
  interactions : List Interaction
  tasks : List CrmTask
  audit : List AuditEntry
  nextContactId : Nat
  nextDealId : Nat
  nextInteractionId : Nat
  nextTaskId : Nat
deriving DecidableEq, Repr, Inhabited

/-- Python truthiness glue `x or default` for an optional string. -/
def pyOr (o : Option String) (d : String) : String :=
  match o with
  | some s => if s = "" then d else s
  | none => d

/-- `args.tags.split(',')` guarded by Python truthiness (`if args.tags`). -/
def tagsOf (o : Option String) : Option (List String) :=
  o.bind (fun t => if t = "" then none else some (t.splitOn ","))

/-- Soft contact reference: `if args.contact:` then resolve, keeping NULL
when resolution fails. -/
def softContact (cs : List Contact) (o : Option String) : Option Nat :=
  o.bind (fun q => if q = "" then none else (resolveContact cs q).map (·.id))

/-- The two failure modes of the mutation engine: primary target not
found, and an empty change set. -/
inductive CrmErr where
  | notFound
  | noUpdates
deriving DecidableEq, Repr

structure AddContactArgs where
  name : String
  email : Option String
  phone : Option String
  company : Option String
  role : Option String
  source : Option String
  tags : Option String
  notes : Option String
  reason : Option String
deriving Repr, Inhabited

/-- add_contact: INSERT plus one audit entry, committed together. -/
def add_contact (s : CRMState) (a : AddContactArgs) (now : Nat) : CRMState × Nat :=
  let cid := s.nextContactId
  let c : Contact :=
    ⟨cid, a.name, a.email, a.phone, a.company, a.role, a.source,
     tagsOf a.tags, a.notes, now, now⟩
  let au := audit_log s.audit "contacts" cid "INSERT" none
    (some (.contactIns a.name a.email a.company)) a.reason
  ({ s with contacts := s.contacts ++ [c], audit := au, nextContactId := cid + 1 }, cid)

structure UpdContactArgs where
  name : Option String
  email : Option String
  phone : Option String
  company : Option String
  role : Option String
  source : Option String
  notes : Option String
  tags : Option String
  reason : Option String
deriving Repr, Inhabited

/-- The sparse change set update_contact collects (plus the updated_at
stamp it adds before writing and auditing). -/
def contactChangesOf (a : UpdContactArgs) (now : Nat) : ContactChanges :=
  ⟨a.name, a.email, a.phone, a.company, a.role, a.source, a.notes,
   tagsOf a.tags, now⟩

/-- `if not updates:` — whether update_contact's change set is nonempty. -/
def hasContactUpdates (a : UpdContactArgs) : Bool :=
  a.name.isSome || a.email.isSome || a.phone.isSome || a.company.isSome ||
  a.role.isSome || a.source.isSome || a.notes.isSome || (tagsOf a.tags).isSome

/-- The dynamic `UPDATE contacts SET ...` applied to one row. -/
def applyContactChanges (c : Contact) (ch : ContactChanges) : Contact :=
  { c with
    name := ch.name.getD c.name
    email := match ch.email with | some v => some v | none => c.email
    phone := match ch.phone with | some v => some v | none => c.phone
    company := match ch.company with | some v => some v | none => c.company
    role := match ch.role with | some v => some v | none => c.role
    source := match ch.source with | some v => some v | none => c.source
    notes := match ch.notes with | some v => some v | none => c.notes
    tags := match ch.tags with | some v => some v | none => c.tags
    updated_at := ch.updated_at }

/-- update_contact: resolve, collect the sparse change set, UPDATE, one
audit entry, single commit. -/
def update_contact (s : CRMState) (ident : String) (a : UpdContactArgs)
    (now : Nat) : Except CrmErr (CRMState × Nat) :=
  match resolveContact s.contacts ident with
  | none => .error .notFound
  | some row =>
    if hasContactUpdates a then
      let ch := contactChangesOf a now
      let contacts' := s.contacts.map
        (fun c => if c.id = row.id then applyContactChanges c ch else c)
      let au := audit_log s.audit "contacts" row.id "UPDATE"
        (some (.contactRow row)) (some (.contactCh ch)) a.reason
      .ok ({ s with contacts := contacts', audit := au }, row.id)
    else .error .noUpdates

/-- delete_contact: exact-id lookup only (`WHERE id = ?`), DELETE, one
audit entry, single commit. The source audits `args.id` verbatim, which
in the success case denotes the same record as `row.id`. -/
def delete_contact (s : CRMState) (ident : String) (reason : Option String) :
    Except CrmErr (CRMState × Nat) :=
  match s.contacts.find? (fun c => pyToNat ident == some c.id) with
  | none => .error .notFound
  | some row =>
    let contacts' := s.contacts.filter (fun c => c.id != row.id)
    let au := audit_log s.audit "contacts" row.id "DELETE"
      (some (.contactRow row)) none reason
    .ok ({ s with contacts := contacts', audit := au }, row.id)

structure AddDealArgs where
  title : String
  value : Option ℚ
  contact : Option String
  stage : String
  probability : Option Int
  currency : String
  expected_close : Option String
  notes : Option String
  reason : Option String
deriving Repr, Inhabited

/-- add_deal: soft contact resolution, expected_close through parse_date,
INSERT (closed_at is not among the inserted columns and stays NULL), one
audit entry, single commit. -/
def add_deal (s : CRMState) (a : AddDealArgs) (now : Nat) (ref : PDT) :
    CRMState × Nat :=
  let contact_id := softContact s.contacts a.contact
  let expected_close :=
    a.expected_close.bind (fun e => if e = "" then none else parse_date e ref)
  let stage := if a.stage = "" then "lead" else a.stage
  let did := s.nextDealId
  let d : Deal :=
    ⟨did, contact_id, a.title, a.value, (if a.currency = "" then "USD" else a.currency),
     stage, a.probability, expected_close, a.notes, none, now, now⟩
  let au := audit_log s.audit "deals" did "INSERT" none
    (some (.dealIns a.title a.value stage)) a.reason
  ({ s with deals := s.deals ++ [d], audit := au, nextDealId := did + 1 }, did)

structure UpdDealArgs where
  title : Option String
  value : Option ℚ
  stage : Option String
  probability : Option Int
  currency : Option String
  expected_close : Option String
  notes : Option String
  reason : Option String
deriving Repr, Inhabited

/-- The sparse change set update_deal collects: supplied fields, parsed
expected_close when supplied, and `closed_at = now` exactly when the new
stage is `won` or `lost`. -/
def dealChangesOf (a : UpdDealArgs) (now : Nat) (ref : PDT) : DealChanges :=
  ⟨a.title, a.value, a.currency, a.stage, a.probability, a.notes,
   a.expected_close.bind (fun e => if e = "" then none else some (parse_date e ref)),
   if a.stage = some "won" ∨ a.stage = some "lost" then some now else none⟩

/-- `if not updates:` — whether update_deal's change set is nonempty
(closed_at is only ever added alongside a supplied stage). -/
def hasDealUpdates (a : UpdDealArgs) : Bool :=
  a.title.isSome || a.value.isSome || a.currency.isSome || a.stage.isSome ||
  a.probability.isSome || a.notes.isSome ||
  (match a.expected_close with | some e => !(e == "") | none => false)

/-- The dynamic `UPDATE deals SET ..., updated_at = ?` applied to one row. -/
def applyDealChanges (d : Deal) (ch : DealChanges) (now : Nat) : Deal :=
  { d with
    title := ch.title.getD d.title
    value := match ch.value with | some v => some v | none => d.value
    currency := ch.currency.getD d.currency
    stage := ch.stage.getD d.stage
    probability := match ch.probability with | some v => some v | none => d.probability
    notes := match ch.notes with | some v => some v | none => d.notes
    expected_close := match ch.expected_close with | some v => v | none => d.expected_close
    closed_at := match ch.closed_at with | some t => some t | none => d.closed_at
    updated_at := now }

/-- update_deal: resolve, collect the sparse change set (with the
terminal-stage closed_at rule), UPDATE, one audit entry, single commit. -/
def update_deal (s : CRMState) (ident : String) (a : UpdDealArgs)
    (now : Nat) (ref : PDT) : Except CrmErr (CRMState × Nat) :=
  match resolveDeal s.deals ident with
  | none => .error .notFound
  | some row =>
    if hasDealUpdates a then
      let ch := dealChangesOf a now ref
      let deals' := s.deals.map
        (fun d => if d.id = row.id then applyDealChanges d ch now else d)
      let au := audit_log s.audit "deals" row.id "UPDATE"
        (some (.dealRow row)) (some (.dealCh ch)) a.reason
      .ok ({ s with deals := deals', audit := au }, row.id)
    else .error .noUpdates

structure LogArgs where
  type : String
  summary : String
  contact : Option String
  deal : Option String
  direction : Option String
  date : Option String
  raw : Option String
  reason : Option String
deriving Repr, Inhabited

/-- log_interaction: soft contact resolution, occurred_at from parse_date
(or now), INSERT, one audit entry (summary truncated to 100 characters),
single commit. -/
def log_interaction (s : CRMState) (a : LogArgs) (now : Nat) (ref : PDT) :
    CRMState × Nat :=
  let contact_id := softContact s.contacts a.contact
  let occurred : Option PRes :=
    match a.date with
    | some dstr => if dstr = "" then some (.dt ref) else parse_date dstr ref
    | none => some (.dt ref)
  let iid := s.nextInteractionId
  let i : Interaction :=
    ⟨iid, contact_id, a.deal, a.type, a.direction, a.summary, a.raw, occurred⟩
  let au := audit_log s.audit "interactions" iid "INSERT" none
    (some (.interIns a.type (a.summary.take 100))) a.reason
  let s' := { s with interactions := s.interactions ++ [i], audit := au, nextInteractionId := iid + 1 }
  (s', iid)

structure AddTaskArgs where
  title : String
  contact : Option String
  deal : Option String
  due : Option String
  priority : Option String
  reason : Option String
deriving Repr, Inhabited

/-- add_task: soft contact resolution, due through parse_date, INSERT,
one audit entry, single commit. -/
def add_task (s : CRMState) (a : AddTaskArgs) (now : Nat) (ref : PDT) :
    CRMState × Nat :=
  let contact_id := softContact s.contacts a.contact
  let due := a.due.bind (fun e => if e = "" then none else parse_date e ref)
  let tid := s.nextTaskId
  let t : CrmTask :=
    ⟨tid, contact_id, a.deal, a.title, due, pyOr a.priority "normal", none, now⟩
  let au := audit_log s.audit "tasks" tid "INSERT" none
    (some (.taskIns a.title due)) a.reason
  ({ s with tasks := s.tasks ++ [t], audit := au, nextTaskId := tid + 1 }, tid)

/-- complete_task: resolve by id or title substring, set completed_at,
one audit entry, single commit. -/
def complete_task (s : CRMState) (ident : String) (reason : Option String)
    (now : Nat) : Except CrmErr (CRMState × Nat) :=
  match resolveTask s.tasks ident with
  | none => .error .notFound
  | some row =>
    let tasks' := s.tasks.map
      (fun t => if t.id = row.id then { t with completed_at := some now } else t)
    let au := audit_log s.audit "tasks" row.id "UPDATE"
      (some (.taskRow row)) (some (.taskDone now)) reason
    .ok ({ s with tasks := tasks', audit := au }, row.id)

/-- The mutation operations of the engine, one constructor per source
function that writes to an entity table. -/
inductive MOp where
  | addC (a : AddContactArgs)
  | updC (ident : String) (a : UpdContactArgs)
  | delC (ident : String) (reason : Option String)
  | addD (a : AddDealArgs)
  | updD (ident : String) (a : UpdDealArgs)
  | logI (a : LogArgs)
  | addT (a : AddTaskArgs)
  | compT (ident : String) (reason : Option String)

/-- Dispatcher over the mutation operations; the returned `Nat` is the
identity of the affected record, as printed by each source function. -/
def runOp (s : CRMState) (op : MOp) (now : Nat) (ref : PDT) :
    Except CrmErr (CRMState × Nat) :=
  match op with
  | .addC a => .ok (add_contact s a now)
  | .updC i a => update_contact s i a now
  | .delC i r => delete_contact s i r
  | .addD a => .ok (add_deal s a now ref)
  | .updD i a => update_deal s i a now ref
  | .logI a => .ok (log_interaction s a now ref)
  | .addT a => .ok (add_task s a now ref)
  | .compT i r => complete_task s i r now

/-- The audited table per operation. -/
def opTable : MOp → String
  | .addC _ => "contacts"
  | .updC _ _ => "contacts"
  | .delC _ _ => "contacts"
  | .addD _ => "deals"
  | .updD _ _ => "deals"
  | .logI _ => "interactions"
  | .addT _ => "tasks"
  | .compT _ _ => "tasks"

/-- The audited action per operation. -/
def opAction : MOp → String
  | .addC _ => "INSERT"
  | .updC _ _ => "UPDATE"
  | .delC _ _ => "DELETE"
  | .addD _ => "INSERT"
  | .updD _ _ => "UPDATE"
  | .logI _ => "INSERT"
  | .addT _ => "INSERT"
  | .compT _ _ => "UPDATE"

/-- The entity-side effect each successful operation must have produced
in the committed state, phrased from the spec's reading of the mutation
(an insert appends a row with the returned id; an update touches the
resolved row and stamps it; a delete removes the identified row). -/
def entityChanged (op : MOp) (s s' : CRMState) (rid : Nat) (now : Nat) : Prop :=
  match op with
  | .addC _ => ∃ c, s'.contacts = s.contacts ++ [c] ∧ c.id = rid
  | .updC _ _ => s'.contacts.length = s.contacts.length ∧
      ∃ c ∈ s'.contacts, c.id = rid ∧ c.updated_at = now
  | .delC _ _ => (∃ c ∈ s.contacts, c.id = rid) ∧ ∀ c ∈ s'.contacts, c.id ≠ rid
  | .addD _ => ∃ d, s'.deals = s.deals ++ [d] ∧ d.id = rid
  | .updD _ _ => s'.deals.length = s.deals.length ∧
      ∃ d ∈ s'.deals, d.id = rid ∧ d.updated_at = now
  | .logI _ => ∃ i, s'.interactions = s.interactions ++ [i] ∧ i.id = rid
  | .addT _ => ∃ t, s'.tasks = s.tasks ++ [t] ∧ t.id = rid
  | .compT _ _ => s'.tasks.length = s.tasks.length ∧
      ∃ t ∈ s'.tasks, t.id = rid ∧ t.completed_at = some now

/- ============ Aggregation engine (scripts/crm.py, pipeline) ============ -/

/-- `stage NOT IN ('won', 'lost')`. -/
def openDeal (d : Deal) : Bool :=
  !(d.stage == "won") && !(d.stage == "lost")

/-- `SUM(value * COALESCE(probability, 50) / 100.0)` over open deals:
SQL SUM skips rows whose product is NULL (NULL `value`) and returns NULL
when no row contributes. -/
def weightedSum (deals : List Deal) : Option ℚ :=
  deals.foldr
    (fun d acc =>
      if openDeal d then
        match d.value with
        | some v => some (v * ((d.probability.getD 50 : Int) : ℚ) / 100 + acc.getD 0)
        | none => acc
      else acc)
    none

/-- `result['weighted_value'] = weighted['weighted'] or 0`. -/
def pipeline_weighted (deals : List Deal) : ℚ :=
  (weightedSum deals).getD 0

/-- The spec's formula, stated in its own words: the probability-weighted
total Σ value × (probability or default 50) / 100 across all open deals. -/
def specWeighted (deals : List Deal) : ℚ :=
  ((deals.filter openDeal).map
    (fun d => d.value.getD 0 * ((d.probability.getD 50 : Int) : ℚ) / 100)).sum

/- ============ Backup/restore manager (scripts/crm-backup.py) ============ -/

/-- The live store path (`DB_PATH`), an opaque constant of the model. -/
def dbFilePath : String := "crm.db"

/-- Opaque file content; `valid` says whether the integrity probe
(`SELECT COUNT(*) FROM contacts`) would succeed against it. -/
structure Content where
  data : Nat
  valid : Bool
deriving DecidableEq, Repr, Inhabited

/-- A backup file in the backup directory, with its optional `.note`
sidecar. -/
structure BackupEntry where
  name : String
  content : Content
  note : Option String
deriving DecidableEq, Repr, Inhabited

/-- The file-system state the backup manager operates on. -/
structure BackupFS where
  db : Option Content
  backups : List BackupEntry
deriving DecidableEq, Repr, Inhabited

/-- The observable file-system writes of the backup manager, in program
order. A backup write covers the consistent copy plus its note sidecar;
a db write is the `shutil.copy2` over the live store. -/
inductive FSEvent where
  | writeBackup (name : String) (c : Content) (note : Option String)
  | writeDb (c : Content)
deriving DecidableEq, Repr

def applyEvent (fs : BackupFS) (e : FSEvent) : BackupFS :=
  match e with
  | .writeBackup n c note => { fs with backups := fs.backups ++ [⟨n, c, note⟩] }
  | .writeDb c => { fs with db := some c }

def applyTrace (fs : BackupFS) (t : List FSEvent) : BackupFS :=
  t.foldl applyEvent fs

/-- `crm_backup_<timestamp>.db` (strftime `%Y%m%d_%H%M%S`). -/
def backupName (now : Nat) : String :=
  "crm_backup_" ++ toString now ++ ".db"

/-- backup_database: fails when the live store is missing, otherwise
emits one consistent backup write (with note sidecar when a nonempty
note is given). `ioOk` models a storage-layer failure, surfaced in the
source either as the not-found error dict or as a propagating exception;
in both cases nothing is written. -/
def backup_database (fs : BackupFS) (now : Nat) (note : Option String)
    (ioOk : Bool) : Except String (String × FSEvent) :=
  match fs.db with
  | none => .error "Database not found"
  | some c =>
    if ioOk then
      let name := backupName now
      .ok (name, .writeBackup name c (note.bind (fun n => if n = "" then none else some n)))
    else .error "backup failed"

/-- The structured results of restore_database. `nameError` is the
unhandled exception raised on the success path when the local
`safety_backup` was never assigned. -/
inductive RestoreResult where
  | backupNotFound (path : String)
  | confirmationRequired (backup_path : String) (current_db : String)
  | safetyBackupFailed
  | corrupt
  | nameError
  | success (restored_from : String) (safety_backup : Option String)
deriving DecidableEq, Repr

/-- Look up a backup file by path. -/
def lookupBackup (fs : BackupFS) (path : String) : Option BackupEntry :=
  fs.backups.find? (fun b => b.name == path)

/-- The tail of restore_database after the confirmation gate and the
safety-backup step: copy the backup over the live store, probe it, and
build the success dict — whose `safety_backup` key reads the local
variable only assigned when a live store existed (`Path(DB_PATH)` is
re-tested after the copy, so the guard is true and the unassigned read
raises). -/
def restoreCopy (fs1 : BackupFS) (b : BackupEntry) (path : String)
    (safetyVar : Option String) (pre : List FSEvent) :
    RestoreResult × List FSEvent :=
  let ev := FSEvent.writeDb b.content
  let fs2 := applyEvent fs1 ev
  let res :=
    if !b.content.valid then RestoreResult.corrupt
    else if fs2.db.isSome then
      match safetyVar with
      | some n => RestoreResult.success path (some n)
      | none => RestoreResult.nameError
    else RestoreResult.success path none
  (res, pre ++ [ev])

/-- restore_database: missing backup fails; without `confirm` a
structured confirmation-required result is returned and nothing is
written; with `confirm`, when a live store exists a pre-restore safety
backup is taken first (aborting before any write to the live store if it
fails), then the copy, probe, and result construction run. -/
def restore_database (fs : BackupFS) (path : String) (confirm : Bool)
    (now : Nat) (ioOk : Bool) : RestoreResult × List FSEvent :=
  match lookupBackup fs path with
  | none => (.backupNotFound path, [])
  | some b =>
    if !confirm then (.confirmationRequired path dbFilePath, [])
    else
      match fs.db with
      | some _ =>
        match backup_database fs now (some "Pre-restore safety backup") ioOk with
        | .error _ => (.safetyBackupFailed, [])
        | .ok (sname, sev) => restoreCopy (applyEvent fs sev) b path (some sname) [sev]
      | none => restoreCopy fs b path none []

/-- A backup file as seen by get_backup_files: its name, the timestamp
parsed from the name when `strptime` succeeds (the `try` branch), its
mtime fallback, and whether a note sidecar exists. -/
structure BFile where
  name : String
  parsedTs : Option Nat
  mtime : Nat
  hasNote : Bool
deriving DecidableEq, Repr, Inhabited

/-- The timestamp get_backup_files attributes to a backup file. -/
def tsOf (b : BFile) : Nat :=
  b.parsedTs.getD b.mtime

/-- get_backup_files: the directory listing sorted by timestamp
descending (Python's stable sort with `reverse=True` keeps ties in
directory order, as stable insertion sort under ≥ does). -/
def get_backup_files (files : List BFile) : List BFile :=
  List.insertionSort (fun a b => tsOf b ≤ tsOf a) files

/-- The JSON result of prune_backups. -/
structure PruneResult where
  noop : Bool
  kept : Nat
  removed : Nat
  removed_files : List String
deriving DecidableEq, Repr

/-- prune_backups: keep the first `keep` of the timestamp-descending
listing, unlink the rest together with their note sidecars; a file whose
deletion raises (`delOk` false) is skipped and omitted from the removed
report. Also returns the files still present afterwards. -/
def prune_backups (files : List BFile) (keep : Nat) (delOk : String → Bool) :
    PruneResult × List BFile :=
  let backups := get_backup_files files
  if backups.length ≤ keep then
    ({ noop := true, kept := keep, removed := 0, removed_files := [] }, backups)
  else
    let toRemove := backups.drop keep
    let removed := (toRemove.filter (fun b => delOk b.name)).map (fun b => b.name)
    ({ noop := false, kept := keep, removed := removed.length, removed_files := removed },
      backups.take keep ++ toRemove.filter (fun b => !delOk b.name))

/- ============ Concrete instances used by witnesses ============ -/

/-- Totality of the prune ordering (timestamp descending). -/
instance : IsTotal BFile (fun a b => tsOf b ≤ tsOf a) :=
  ⟨fun a b => Nat.le_total (tsOf b) (tsOf a)⟩

/-- Transitivity of the prune ordering (timestamp descending). -/
instance : IsTrans BFile (fun a b => tsOf b ≤ tsOf a) :=
  ⟨fun _ _ _ hab hbc => Nat.le_trans hbc hab⟩

/-- A reference instant: 2026-10-12, 01:00. -/
def refT : PDT := ⟨2026, 10, 12, 3600⟩

/-- The empty store. -/
def crmEmpty : CRMState := ⟨[], [], [], [], [], 1, 1, 1, 1⟩

def c1addArgs : AddContactArgs :=
  ⟨"Ada", some "ada@example.com", none, none, none, none, none, none, some "new lead"⟩

def c1op : MOp := .addC c1addArgs

/-- The state after the witness mutation of the audit-pairing claim. -/
def c1s1 : CRMState :=
  match runOp crmEmpty c1op 5 refT with
  | .ok (s, _) => s
  | .error _ => crmEmpty

/-- Earlier row whose name substring-matches "smith", updated at 10. -/
def c2a : Contact := ⟨1, "Smith Industrial", none, none, none, none, none, none, none, 1, 10⟩

/-- Later row also matching "smith", updated at 20 (the latest). -/
def c2b : Contact := ⟨2, "Smith", none, none, none, none, none, none, none, 2, 20⟩

def c2list : List Contact := [c2a, c2b]

/-- Row 1, whose name contains the digit 2. -/
def c2x : Contact := ⟨1, "Agent 2", none, none, none, none, none, none, none, 1, 1⟩

/-- Row 2, the exact-id match for identifier "2". -/
def c2y : Contact := ⟨2, "Bob", none, none, none, none, none, none, none, 2, 2⟩

def c2exact : List Contact := [c2x, c2y]

/-- add_deal arguments creating a deal directly in the terminal stage. -/
def c3addArgs : AddDealArgs :=
  ⟨"Acme renewal", some 500, none, "won", none, "USD", none, none, none⟩

/-- A store with one open deal. -/
def c3deal : Deal :=
  ⟨1, none, "Acme renewal", some 1000, "USD", "lead", none, none, none, none, 1, 1⟩

def c3s : CRMState := ⟨[], [c3deal], [], [], [], 1, 2, 1, 1⟩

/-- update_deal arguments moving the stage to won. -/
def c3upd : UpdDealArgs := ⟨none, none, some "won", none, none, none, none, none⟩

/-- The state after the witness deal update. -/
def c3s1 : CRMState :=
  match update_deal c3s "1" c3upd 9 refT with
  | .ok (s, _) => s
  | .error _ => c3s

/-- A valid backup file of the backup-manager instances. -/
def bkEntry : BackupEntry := ⟨"crm_backup_100.db", ⟨42, true⟩, none⟩

/-- A file system with a live store and one backup. -/
def fsLive : BackupFS := ⟨some ⟨7, true⟩, [bkEntry]⟩

/-- A file system with no live store and one backup. -/
def fsNoDb : BackupFS := ⟨none, [bkEntry]⟩

/-- Five backups with distinct timestamps, listed out of order. -/
def c8files : List BFile :=
  [⟨"b3", some 30, 0, true⟩, ⟨"b1", some 10, 0, true⟩, ⟨"b5", some 50, 0, true⟩,
   ⟨"b2", some 20, 0, false⟩, ⟨"b4", some 40, 0, false⟩]

/-- Open deal worth 1000 with NULL probability. -/
def c9a : Deal := ⟨1, none, "A", some 1000, "USD", "lead", none, none, none, none, 1, 1⟩

/-- Open deal worth 2000 with probability 80. -/
def c9b : Deal := ⟨2, none, "B", some 2000, "USD", "qualified", some 80, none, none, none, 1, 1⟩

def c9deals : List Deal := [c9a, c9b]

/- ============ Theorems ============ -/

/-- C5: the temporal resolver is a pure function of (expression,
reference instant) — determinism is definitional in the embedding — and
for every reference instant T, resolving "today" yields midnight of T's
calendar day whatever T's time component, while resolving "in 3 days"
yields exactly that result shifted by 3 days. -/
theorem temporal_today_and_offset (T : PDT) :
    parse_date "today" T = some (.dt ⟨T.year, T.month, T.day, 0⟩) ∧
    parse_date "in 3 days" T = some (.dt (addDays ⟨T.year, T.month, T.day, 0⟩ 3)) ∧
    (∀ r, parse_date "today" T = some (.dt r) →
      parse_date "in 3 days" T = some (.dt (addDays r 3))) := by
  refine ⟨rfl, rfl, ?_⟩
  intro r hr
  have : PRes.dt ⟨T.year, T.month, T.day, 0⟩ = PRes.dt r := by
    have h0 : parse_date "today" T = some (.dt ⟨T.year, T.month, T.day, 0⟩) := rfl
    exact Option.some.inj (h0.symm.trans hr)
  cases this
  rfl

/-- C6: for an existing backup path, restore invoked without the
confirmation flag returns the structured confirmation-required result
carrying the backup path and the live database path, writes nothing, and
leaves the live store's content unchanged. -/
theorem restore_unconfirmed_noop (fs : BackupFS) (path : String) (now : Nat)
    (ioOk : Bool) (h : (lookupBackup fs path).isSome = true) :
    restore_database fs path false now ioOk =
      (.confirmationRequired path dbFilePath, []) ∧
    applyTrace fs (restore_database fs path false now ioOk).2 = fs := by
  obtain ⟨b, hb⟩ := Option.isSome_iff_exists.mp h
  have heq : restore_database fs path false now ioOk =
      (.confirmationRequired path dbFilePath, []) := by
    unfold restore_database
    rw [hb]
    rfl
  refine ⟨heq, ?_⟩
  rw [heq]
  rfl

/-- C6 witness: a concrete run against a live store with one backup. -/
theorem restore_unconfirmed_noop_witness :
    (lookupBackup fsLive "crm_backup_100.db").isSome = true ∧
    (restore_database fsLive "crm_backup_100.db" false 200 true =
        (.confirmationRequired "crm_backup_100.db" dbFilePath, []) ∧
      applyTrace fsLive (restore_database fsLive "crm_backup_100.db" false 200 true).2 = fsLive) :=
  ⟨by decide, restore_unconfirmed_noop fsLive "crm_backup_100.db" 200 true (by decide)⟩

/-- C7: for a confirmed restore with an existing live store, the trace
consists of exactly the pre-restore safety backup of the current content
followed by the copy — the safety backup strictly precedes any change to
the live store — and when taking the safety backup fails, the restore
aborts having written nothing. -/
theorem restore_safety_first (fs : BackupFS) (path : String) (b : BackupEntry)
    (c : Content) (now : Nat)
    (hb : lookupBackup fs path = some b) (hdb : fs.db = some c) :
    restore_database fs path true now false = (.safetyBackupFailed, []) ∧
    (restore_database fs path true now true).2 =
      [FSEvent.writeBackup (backupName now) c (some "Pre-restore safety backup"),
       FSEvent.writeDb b.content] := by
  constructor
  · unfold restore_database
    rw [hb]
    simp [hdb, backup_database]
  · unfold restore_database
    rw [hb]
    simp [hdb, backup_database, restoreCopy]

/-- C7 witness: a concrete confirmed restore over an existing store, in
both the failing-safety-backup and the successful mode. -/
theorem restore_safety_first_witness :
    lookupBackup fsLive "crm_backup_100.db" = some bkEntry ∧
    fsLive.db = some ⟨7, true⟩ ∧
    (restore_database fsLive "crm_backup_100.db" true 200 false = (.safetyBackupFailed, []) ∧
      (restore_database fsLive "crm_backup_100.db" true 200 true).2 =
        [FSEvent.writeBackup (backupName 200) ⟨7, true⟩ (some "Pre-restore safety backup"),
         FSEvent.writeDb bkEntry.content]) :=
  ⟨by decide, by decide,
    restore_safety_first fsLive "crm_backup_100.db" bkEntry ⟨7, true⟩ 200 (by decide) (by decide)⟩

/-- C10: a confirmed restore from a valid existing backup with no live
store beforehand copies the backup into place and then terminates with
the unhandled NameError from reading the never-assigned `safety_backup`
local, instead of returning the success result. -/
theorem restore_missing_db_name_error (fs : BackupFS) (path : String)
    (b : BackupEntry) (now : Nat) (ioOk : Bool)
    (hb : lookupBackup fs path = some b) (hdb : fs.db = none)
    (hv : b.content.valid = true) :
    restore_database fs path true now ioOk = (.nameError, [FSEvent.writeDb b.content]) ∧
    (applyTrace fs [FSEvent.writeDb b.content]).db = some b.content := by
  constructor
  · unfold restore_database
    rw [hb]
    simp [hdb, restoreCopy, applyEvent, hv]
  · simp [applyTrace, applyEvent]

/-- C10 witness: a concrete confirmed restore with no live store. -/
theorem restore_missing_db_name_error_witness :
    lookupBackup fsNoDb "crm_backup_100.db" = some bkEntry ∧
    fsNoDb.db = none ∧ bkEntry.content.valid = true ∧
    (restore_database fsNoDb "crm_backup_100.db" true 200 true =
        (.nameError, [FSEvent.writeDb bkEntry.content]) ∧
      (applyTrace fsNoDb [FSEvent.writeDb bkEntry.content]).db = some bkEntry.content) :=
  ⟨by decide, by decide, by decide,
    restore_missing_db_name_error fsNoDb "crm_backup_100.db" bkEntry 200 true
      (by decide) (by decide) (by decide)⟩

/-- Unfolding lemma for the SQL SUM accumulator. -/
theorem weightedSum_cons (d : Deal) (rest : List Deal) :
    weightedSum (d :: rest) =
      (if openDeal d then
        match d.value with
        | some v => some (v * ((d.probability.getD 50 : Int) : ℚ) / 100 + (weightedSum rest).getD 0)
        | none => weightedSum rest
      else weightedSum rest) := rfl

/-- C9: whenever every open deal carries a value, the pipeline's weighted
value equals the spec's formula Σ value × (probability or 50) / 100 over
the open deals. -/
theorem weighted_value_formula (deals : List Deal)
    (h : ∀ d ∈ deals, openDeal d = true → d.value.isSome = true) :
    pipeline_weighted deals = specWeighted deals := by
  induction deals with
  | nil => rfl
  | cons d rest ih =>
    have hrest : ∀ x ∈ rest, openDeal x = true → x.value.isSome = true :=
      fun x hx => h x (List.mem_cons_of_mem _ hx)
    have ihr := ih hrest
    by_cases ho : openDeal d = true
    · cases hv : d.value with
      | none =>
        have := h d (List.mem_cons_self _ _) ho
        rw [hv] at this
        simp at this
      | some v =>
        unfold pipeline_weighted at ihr ⊢
        unfold specWeighted at ihr ⊢
        rw [weightedSum_cons, ho, if_pos rfl, hv]
        rw [List.filter_cons_of_pos ho, List.map_cons, List.sum_cons]
        simp [hv, ihr]
    · have ho' : openDeal d = false := Bool.eq_false_iff.mpr ho
      unfold pipeline_weighted at ihr ⊢
      unfold specWeighted at ihr ⊢
      rw [weightedSum_cons, ho']
      rw [List.filter_cons_of_neg (by simp [ho'])]
      simpa using ihr

/-- C9 witness: two open deals, 1000 at NULL probability (default 50)
and 2000 at probability 80, give weighted value 500 + 1600 = 2100. -/
theorem weighted_value_formula_witness :
    (∀ d ∈ c9deals, openDeal d = true → d.value.isSome = true) ∧
    pipeline_weighted c9deals = specWeighted c9deals ∧
    pipeline_weighted c9deals = 2100 := by
  refine ⟨by decide, weighted_value_formula c9deals (by decide), ?_⟩
  have ha : openDeal c9a = true := by decide
  have hb : openDeal c9b = true := by decide
  have hsum : weightedSum c9deals =
      some ((1000 : ℚ) * ((50 : Int) : ℚ) / 100 +
        ((2000 : ℚ) * ((80 : Int) : ℚ) / 100 + 0)) := by
    show weightedSum (c9a :: [c9b]) = _
    rw [weightedSum_cons, ha, if_pos rfl]
    rw [show c9a.value = some 1000 from rfl]
    rw [weightedSum_cons, hb, if_pos rfl]
    rw [show c9b.value = some 2000 from rfl]
    rfl
  unfold pipeline_weighted
  rw [hsum]
  norm_num

/-- C2 counterexample: the claim that the resolver returns the
latest-updated substring match, with exact id matches taking precedence,
is false. Both rows match "smith" but the resolver returns the first row
in table order (updated at 10), not the latest-updated row (20); and for
identifier "2" it returns row 1 (whose name contains the character 2)
even though row 2 is an exact id match. -/
theorem resolver_latest_refuted :
    (resolveContact c2list "smith" = some c2a ∧
      contactMatches "smith" c2b = true ∧
      c2a.updated_at < c2b.updated_at) ∧
    (resolveContact c2exact "2" = some c2x ∧
      pyToNat "2" = some c2y.id ∧ c2x.id ≠ c2y.id) := by
  decide

/-- C2 amended: the resolver deterministically returns the first row in
table (insertion) order whose id matches the identifier exactly or whose
lowercased name contains the lowercased identifier; no candidate before
it matches, and no precedence beyond scan order is applied. -/
theorem resolver_first_match (cs : List Contact) (ident : String) (c : Contact)
    (h : resolveContact cs ident = some c) :
    contactMatches ident c = true ∧
    ∃ pre suf, cs = pre ++ c :: suf ∧
      ∀ d ∈ pre, contactMatches ident d = false := by
  refine ⟨List.find?_some h, ?_⟩
  induction cs with
  | nil => simp [resolveContact] at h
  | cons x xs ih =>
    by_cases hx : contactMatches ident x = true
    · rw [resolveContact, List.find?_cons_of_pos _ hx] at h
      cases h
      exact ⟨[], xs, rfl, by intro d hd; cases hd⟩
    · have hx' : contactMatches ident x = false := Bool.eq_false_iff.mpr hx
      rw [resolveContact, List.find?_cons_of_neg _ (by simp [hx'])] at h
      obtain ⟨pre, suf, heq, hall⟩ := ih h
      refine ⟨x :: pre, suf, by rw [List.cons_append, ← heq], ?_⟩
      intro d hd
      rcases List.mem_cons.mp hd with rfl | hdm
      · exact hx'
      · exact hall d hdm

/-- C2 amended witness: a concrete resolution over the two-row table. -/
theorem resolver_first_match_witness :
    contactMatches "smith" c2a = true ∧
    ∃ pre suf, c2list = pre ++ c2a :: suf ∧
      ∀ d ∈ pre, contactMatches "smith" d = false :=
  resolver_first_match c2list "smith" c2a (by decide)

/-- C3 counterexample: closed_at is not equivalent to being in a
terminal stage on states reachable through add_deal — a deal created
directly with stage "won" has NULL closed_at (add_deal never writes that
column). -/
theorem closed_at_iff_refuted :
    ((add_deal crmEmpty c3addArgs 5 refT).1.deals.map
      (fun d => (d.stage, d.closed_at))) = [("won", (none : Option Nat))] := by
  decide

/-- C3 amended: in update_deal, closed_at is stamped with the current
instant exactly when the supplied stage is won or lost; an update whose
stage field is absent (for example a notes-only update) and an update to
a non-terminal stage both leave closed_at exactly as it was. The
biconditional of the original claim fails only because add_deal never
sets closed_at (see the counterexample). -/
theorem closed_at_update_rules (s : CRMState) (ident : String) (a : UpdDealArgs)
    (now : Nat) (ref : PDT) (s' : CRMState) (rid : Nat)
    (h : update_deal s ident a now ref = .ok (s', rid))
    (d : Deal) (hd : d ∈ s.deals) (hid : d.id = rid) :
    ∃ d' ∈ s'.deals, d'.id = rid ∧
      ((a.stage = some "won" ∨ a.stage = some "lost") → d'.closed_at = some now) ∧
      (∀ st, a.stage = some st → st ≠ "won" → st ≠ "lost" → d'.closed_at = d.closed_at) ∧
      (a.stage = none → d'.closed_at = d.closed_at) := by
  unfold update_deal at h
  cases hres : resolveDeal s.deals ident with
  | none => rw [hres] at h; cases h
  | some row =>
    rw [hres] at h
    dsimp only at h
    by_cases hup : hasDealUpdates a = true
    · rw [if_pos hup] at h
      cases h
      refine ⟨applyDealChanges d (dealChangesOf a now ref) now, ?_, ?_, ?_, ?_, ?_⟩
      · have hmem := List.mem_map_of_mem
          (fun d => if d.id = row.id then applyDealChanges d (dealChangesOf a now ref) now else d) hd
        simp only [if_pos hid] at hmem
        exact hmem
      · simpa [applyDealChanges] using hid
      · intro hterm
        simp [applyDealChanges, dealChangesOf, if_pos hterm]
      · intro st hst hw hl
        have hterm : ¬(a.stage = some "won" ∨ a.stage = some "lost") := by
          rw [hst]
          rintro (hc | hc) <;> [exact hw (Option.some.inj hc); exact hl (Option.some.inj hc)]
        simp [applyDealChanges, dealChangesOf, if_neg hterm]
      · intro hnone
        have hterm : ¬(a.stage = some "won" ∨ a.stage = some "lost") := by
          rw [hnone]
          rintro (hc | hc) <;> cases hc
        simp [applyDealChanges, dealChangesOf, if_neg hterm]
    · rw [if_neg hup] at h
      cases h

/-- C3 amended witness: updating the open demo deal to stage won stamps
closed_at with the update instant. -/
theorem closed_at_update_rules_witness :
    ∃ d' ∈ c3s1.deals, d'.id = 1 ∧
      ((c3upd.stage = some "won" ∨ c3upd.stage = some "lost") → d'.closed_at = some 9) ∧
      (∀ st, c3upd.stage = some st → st ≠ "won" → st ≠ "lost" →
        d'.closed_at = c3deal.closed_at) ∧
      (c3upd.stage = none → d'.closed_at = c3deal.closed_at) :=
  closed_at_update_rules c3s "1" c3upd 9 refT c3s1 1 rfl c3deal (by decide) rfl

/-- An option that is not `isSome` is `none`. -/
theorem eq_none_of_not_isSome {α : Type} (o : Option α) (h : ¬ o.isSome = true) :
    o = none := by
  cases o with
  | none => rfl
  | some v => simp at h

/-- The next-unit branch falls through when the suffix is neither week
nor month. -/
theorem nextUnitBranch_none (t : String) (today : PDT)
    (h : startsWithNext t = true → dropNext t ≠ "week" ∧ dropNext t ≠ "month") :
    nextUnitBranch t today = none := by
  unfold nextUnitBranch
  by_cases hs : startsWithNext t = true
  · rw [if_pos hs, if_neg (h hs).1, if_neg (h hs).2]
  · rw [if_neg hs]

/-- The format chain falls through when every format fails. -/
theorem fmtParse_none (l : List Char)
    (h1 : ¬ (fmtYMD l).isSome = true) (h2 : ¬ (fmtMDY l).isSome = true)
    (h3 : ¬ (fmtMD l).isSome = true) (h4 : ¬ (fmtBD l).isSome = true)
    (h5 : ¬ (fmtbD l).isSome = true) :
    fmtParse l = none := by
  unfold fmtParse
  rw [eq_none_of_not_isSome _ h1, eq_none_of_not_isSome _ h2,
    eq_none_of_not_isSome _ h3, eq_none_of_not_isSome _ h4,
    eq_none_of_not_isSome _ h5]

/-- C4 counterexample: an input matching no recognized pattern is not
returned unmodified — parse_date lowercases (and strips) before
matching and returns that normalized string, so "Zebra" comes back as
"zebra". -/
theorem passthrough_unmodified_refuted :
    ¬ Recognized (pyNorm "Zebra") ∧
    parse_date "Zebra" refT = some (.raw "zebra") ∧
    (some (PRes.raw "zebra") ≠ some (PRes.raw "Zebra")) := by
  refine ⟨by decide, by decide, by decide⟩

/-- C4 amended: for every nonempty input whose lowercased stripped form
matches none of the recognized patterns, parse_date returns that
lowercased stripped form as a raw passthrough (not an error; and the
original string only when it was already lowercase and stripped). -/
theorem passthrough_lowercased (s : String) (T : PDT) (hne : s ≠ "")
    (h : ¬ Recognized (pyNorm s)) :
    parse_date s T = some (.raw (pyNorm s)) := by
  unfold Recognized at h
  push_neg at h
  obtain ⟨h1, h2, h3, h4, h5, h6, h7, h8, h9, h10, h11, h12⟩ := h
  unfold parse_date
  rw [if_neg hne]
  dsimp only
  rw [if_neg h1, if_neg h2, if_neg h3]
  rw [nextUnitBranch_none _ _ (fun hs => h4 hs)]
  dsimp only
  rw [eq_none_of_not_isSome _ h5]
  dsimp only
  rw [if_neg ?hday]
  case hday =>
    rintro (hc | ⟨ha, hb⟩)
    · exact h6 hc
    · exact h7 ha hb
  rw [fmtParse_none _ h8 h9 h10 h11 h12]

/-- C4 amended witness: the concrete unrecognized input "Zebra". -/
theorem passthrough_lowercased_witness :
    ("Zebra" : String) ≠ "" ∧ ¬ Recognized (pyNorm "Zebra") ∧
    parse_date "Zebra" refT = some (.raw (pyNorm "Zebra")) :=
  ⟨by decide, by decide, passthrough_lowercased "Zebra" refT (by decide) (by decide)⟩

/-- C8: prune keeps exactly the `keep` newest backups of the
timestamp-descending listing and removes the older ones (strictly older
when timestamps are distinct) together with their records (note sidecars
travel with their `BFile`); a file whose deletion fails stays on disk
and is omitted from the removed report instead of aborting the prune,
and when every deletion succeeds the removed report is exactly the old
tail. -/
theorem prune_keeps_newest (files : List BFile) (keep : Nat) (delOk : String → Bool)
    (h : keep < (get_backup_files files).length) :
    (∀ f ∈ (get_backup_files files).drop keep,
      ∀ g ∈ (get_backup_files files).take keep, tsOf f ≤ tsOf g) ∧
    ((get_backup_files files).Pairwise (fun a b => tsOf a ≠ tsOf b) →
      ∀ f ∈ (get_backup_files files).drop keep,
        ∀ g ∈ (get_backup_files files).take keep, tsOf f < tsOf g) ∧
    ((get_backup_files files).take keep).length = keep ∧
    (∀ g ∈ (get_backup_files files).take keep, g ∈ (prune_backups files keep delOk).2) ∧
    ((∀ n, delOk n = true) →
      (prune_backups files keep delOk).2 = (get_backup_files files).take keep ∧
      (prune_backups files keep delOk).1.removed_files =
        ((get_backup_files files).drop keep).map (fun b => b.name) ∧
      (prune_backups files keep delOk).1.removed =
        (get_backup_files files).length - keep) ∧
    (∀ b ∈ (get_backup_files files).drop keep, delOk b.name = false →
      b ∈ (prune_backups files keep delOk).2 ∧
      b.name ∉ (prune_backups files keep delOk).1.removed_files) := by
  have hnle : ¬ (get_backup_files files).length ≤ keep := Nat.not_le.mpr h
  have hs : (get_backup_files files).Sorted (fun a b => tsOf b ≤ tsOf a) := by
    unfold get_backup_files
    exact List.sorted_insertionSort _ files
  have hp2 : (prune_backups files keep delOk).2 =
      (get_backup_files files).take keep ++
        ((get_backup_files files).drop keep).filter (fun b => !delOk b.name) := by
    unfold prune_backups
    rw [if_neg hnle]
  have hpr : (prune_backups files keep delOk).1.removed_files =
      (((get_backup_files files).drop keep).filter (fun b => delOk b.name)).map
        (fun b => b.name) := by
    unfold prune_backups
    rw [if_neg hnle]
  have hprc : (prune_backups files keep delOk).1.removed =
      ((((get_backup_files files).drop keep).filter (fun b => delOk b.name)).map
        (fun b => b.name)).length := by
    unfold prune_backups
    rw [if_neg hnle]
  have hle : ∀ f ∈ (get_backup_files files).drop keep,
      ∀ g ∈ (get_backup_files files).take keep, tsOf f ≤ tsOf g :=
    fun f hf g hg => hs.rel_of_mem_take_of_mem_drop hg hf
  refine ⟨hle, ?_, ?_, ?_, ?_, ?_⟩
  · intro hp f hf g hg
    have hsplit := hp
    rw [← List.take_append_drop keep (get_backup_files files)] at hsplit
    have hne := (List.pairwise_append.mp hsplit).2.2 g hg f hf
    exact lt_of_le_of_ne (hle f hf g hg) (Ne.symm hne)
  · rw [List.length_take]
    exact Nat.min_eq_left h.le
  · intro g hg
    rw [hp2]
    exact List.mem_append_left _ hg
  · intro hall
    refine ⟨?_, ?_, ?_⟩
    · rw [hp2, List.filter_eq_nil_iff.mpr (fun a _ => by simp [hall a.name]), List.append_nil]
    · rw [hpr, List.filter_eq_self.mpr (fun a _ => hall a.name)]
    · rw [hprc, List.filter_eq_self.mpr (fun a _ => hall a.name), List.length_map,
        List.length_drop]
  · intro b hb hfail
    constructor
    · rw [hp2]
      exact List.mem_append_right _ (List.mem_filter.mpr ⟨hb, by simp [hfail]⟩)
    · rw [hpr]
      intro hmem
      obtain ⟨x, hx, hxn⟩ := List.mem_map.mp hmem
      have hxd : delOk x.name = true := (List.mem_filter.mp hx).2
      rw [hxn, hfail] at hxd
      cases hxd

/-- C8 witness: five backups with distinct timestamps, keep = 2, all
deletions succeeding — exactly the three oldest (b3, b2, b1) are
removed and the two newest remain. -/
theorem prune_keeps_newest_witness :
    (2 < (get_backup_files c8files).length ∧
      (∀ f ∈ (get_backup_files c8files).drop 2,
        ∀ g ∈ (get_backup_files c8files).take 2, tsOf f ≤ tsOf g) ∧
      ((get_backup_files c8files).Pairwise (fun a b => tsOf a ≠ tsOf b) →
        ∀ f ∈ (get_backup_files c8files).drop 2,
          ∀ g ∈ (get_backup_files c8files).take 2, tsOf f < tsOf g) ∧
      ((get_backup_files c8files).take 2).length = 2 ∧
      (∀ g ∈ (get_backup_files c8files).take 2,
        g ∈ (prune_backups c8files 2 (fun _ => true)).2) ∧
      ((∀ n, (fun (_ : String) => true) n = true) →
        (prune_backups c8files 2 (fun _ => true)).2 = (get_backup_files c8files).take 2 ∧
        (prune_backups c8files 2 (fun _ => true)).1.removed_files =
          ((get_backup_files c8files).drop 2).map (fun b => b.name) ∧
        (prune_backups c8files 2 (fun _ => true)).1.removed =
          (get_backup_files c8files).length - 2) ∧
      (∀ b ∈ (get_backup_files c8files).drop 2, (fun (_ : String) => true) b.name = false →
        b ∈ (prune_backups c8files 2 (fun _ => true)).2 ∧
        b.name ∉ (prune_backups c8files 2 (fun _ => true)).1.removed_files)) ∧
    (prune_backups c8files 2 (fun _ => true)).1.removed_files = ["b3", "b2", "b1"] := by
  refine ⟨⟨by decide, ?_⟩, by decide⟩
  exact (by exact prune_keeps_newest c8files 2 (fun _ => true) (by decide) :
    _ ∧ _ ∧ _ ∧ _ ∧ _ ∧ _)

/-- C1: every successful mutation of the engine commits, in the same
atomic state transition as the entity change, exactly one new audit
entry, whose table name, record id and action match the mutation; the
entity change and the appended entry appear together in the committed
state (a failed operation returns an error and no state). -/
theorem audit_pairing (s : CRMState) (op : MOp) (now : Nat) (ref : PDT)
    (s' : CRMState) (rid : Nat)
    (h : runOp s op now ref = .ok (s', rid)) :
    ∃ e : AuditEntry,
      s'.audit = s.audit ++ [e] ∧
      e.table_name = opTable op ∧
      e.record_id = rid ∧
      e.action = opAction op ∧
      entityChanged op s s' rid now := by
  cases op with
  | addC a =>
    unfold runOp add_contact at h
    cases h
    exact ⟨_, rfl, rfl, rfl, rfl, _, rfl, rfl⟩
  | updC i a =>
    unfold runOp update_contact at h
    dsimp only at h
    cases hres : resolveContact s.contacts i with
    | none => rw [hres] at h; cases h
    | some row =>
      rw [hres] at h
      dsimp only at h
      by_cases hup : hasContactUpdates a = true
      · rw [if_pos hup] at h
        cases h
        refine ⟨_, rfl, rfl, rfl, rfl, ?_, ?_⟩
        · exact List.length_map _ _
        · have hmem0 : row ∈ s.contacts := List.mem_of_find?_eq_some hres
          have hmem := List.mem_map_of_mem
            (fun c => if c.id = row.id then applyContactChanges c (contactChangesOf a now) else c)
            hmem0
          simp only [if_pos rfl] at hmem
          exact ⟨_, hmem, rfl, rfl⟩
      · rw [if_neg hup] at h
        cases h
  | delC i r =>
    unfold runOp delete_contact at h
    dsimp only at h
    cases hres : s.contacts.find? (fun c => pyToNat i == some c.id) with
    | none => rw [hres] at h; cases h
    | some row =>
      rw [hres] at h
      dsimp only at h
      cases h
      refine ⟨_, rfl, rfl, rfl, rfl, ?_, ?_⟩
      · exact ⟨row, List.mem_of_find?_eq_some hres, rfl⟩
      · intro c hc
        have hcf := List.mem_filter.mp hc
        simpa using hcf.2
  | addD a =>
    unfold runOp add_deal at h
    cases h
    exact ⟨_, rfl, rfl, rfl, rfl, _, rfl, rfl⟩
  | updD i a =>
    unfold runOp update_deal at h
    dsimp only at h
    cases hres : resolveDeal s.deals i with
    | none => rw [hres] at h; cases h
    | some row =>
      rw [hres] at h
      dsimp only at h
      by_cases hup : hasDealUpdates a = true
      · rw [if_pos hup] at h
        cases h
        refine ⟨_, rfl, rfl, rfl, rfl, ?_, ?_⟩
        · exact List.length_map _ _
        · have hmem0 : row ∈ s.deals := List.mem_of_find?_eq_some hres
          have hmem := List.mem_map_of_mem
            (fun d => if d.id = row.id then applyDealChanges d (dealChangesOf a now ref) now else d)
            hmem0
          simp only [if_pos rfl] at hmem
          exact ⟨_, hmem, rfl, rfl⟩
      · rw [if_neg hup] at h
        cases h
  | logI a =>
    unfold runOp log_interaction at h
    cases h
    exact ⟨_, rfl, rfl, rfl, rfl, _, rfl, rfl⟩
  | addT a =>
    unfold runOp add_task at h
    cases h
    exact ⟨_, rfl, rfl, rfl, rfl, _, rfl, rfl⟩
  | compT i r =>
    unfold runOp complete_task at h
    dsimp only at h
    cases hres : resolveTask s.tasks i with
    | none => rw [hres] at h; cases h
    | some row =>
      rw [hres] at h
      dsimp only at h
      cases h
      refine ⟨_, rfl, rfl, rfl, rfl, ?_, ?_⟩
      · exact List.length_map _ _
      · have hmem0 : row ∈ s.tasks := List.mem_of_find?_eq_some hres
        have hmem := List.mem_map_of_mem
          (fun t => if t.id = row.id then { t with completed_at := some now } else t)
          hmem0
        simp only [if_pos rfl] at hmem
        exact ⟨_, hmem, rfl, rfl⟩

/-- C1 witness: adding a contact to the empty store appends exactly the
matching audit entry alongside the insert. -/
theorem audit_pairing_witness :
    ∃ e : AuditEntry,
      c1s1.audit = crmEmpty.audit ++ [e] ∧
      e.table_name = opTable c1op ∧
      e.record_id = 1 ∧
      e.action = opAction c1op ∧
      entityChanged c1op crmEmpty c1s1 1 5 :=
  audit_pairing crmEmpty c1op 5 refT c1s1 1 rfl
